import Mathlib

/-!
Shallow embedding of the lesson-plan backend (`app.py`) and proofs about its
`/generate` pipeline: the duration/phase-budget computation, the response
normalizer (blocked/empty check, fence stripping, JSON shape repair,
assessment merge) and the HTTP outcome mapping.
-/

set_option autoImplicit false
set_option maxRecDepth 40000

namespace LessonPlan

/-! ## Model of Python binary64 arithmetic for `total_duration * 0.15`

CPython evaluates `int(total_duration * 0.15)` by converting the integer to a
binary64 float (round to nearest, ties to even), multiplying by the binary64
value nearest to 0.15 (which is `5404319552844595 / 2^55`), rounding the exact
product to binary64 again, and truncating toward zero.  For nonnegative
integers this is modelled exactly below with unbounded naturals: `flN t`
rounds the integer `t` to 53 significant bits, and since every intermediate
value here has a power-of-two denominator, rounding the rational
`t / 2^55` to binary64 is the same as rounding the numerator `t` to 53
significant bits. -/

/-- Fuel-driven base-2 logarithm (structural recursion so that the kernel can
evaluate it): `log2Aux fuel n` is the floor of log2 of `n` whenever
`n ≤ fuel` and `1 ≤ n`. -/
def log2Aux : Nat → Nat → Nat
  | 0, _ => 0
  | fuel + 1, n => if 2 ≤ n then log2Aux fuel (n / 2) + 1 else 0

/-- Floor of the base-2 logarithm, kernel-evaluable. -/
def natLog2 (n : Nat) : Nat :=
  log2Aux n n

/-- Round the natural `t` to a multiple of `2^s`, to nearest with ties to the
even multiple (the IEEE-754 rounding used by CPython floats). -/
def rnd53 (t s : Nat) : Nat :=
  if t % 2 ^ s < 2 ^ s / 2 then t / 2 ^ s * 2 ^ s
  else if 2 ^ s / 2 < t % 2 ^ s then (t / 2 ^ s + 1) * 2 ^ s
  else if t / 2 ^ s % 2 = 0 then t / 2 ^ s * 2 ^ s else (t / 2 ^ s + 1) * 2 ^ s

/-- Round a natural number to 53 significant bits (round to nearest, ties to
even).  This is the rounding CPython applies when converting an integer to
binary64; the conversion itself overflows (raises `OverflowError`) exactly
when the rounded value reaches `2^1024`, i.e. for `t ≥ 2^1024 - 2^970` — see
`pyFloat`. -/
def flN (t : Nat) : Nat :=
  if t < 2 ^ 53 then t else rnd53 t (natLog2 t - 52)

/-- Embeds CPython's `float(t)` on a nonnegative integer: the rounded value
when it is finite (below `2^1024`), and `none` for the `OverflowError` raised
when the rounded value would be infinite. -/
def pyFloat (t : Nat) : Option Nat :=
  if flN t < 2 ^ 1024 then some (flN t) else none

/-- Numerator over `2^55` of the binary64 float nearest to `0.15`:
`0.15` is stored as `5404319552844595 / 2^55`. -/
def M015 : Nat := 5404319552844595

/-- Numerator over `2^55` of the binary64 result of `u * 0.15` for a finite
nonnegative double with numerator `u` over `2^0`: multiply by the float
`0.15` and round the exact product back to binary64.  Multiplying a finite
double by `0.15 < 1` rounds to at most the double itself, so this
multiplication never overflows. -/
def times015 (u : Nat) : Nat :=
  flN (u * M015)

/-- Numerator over `2^55` of `float(n) * 0.15` for `n` below the conversion
overflow threshold. -/
def pyTimes015 (n : Nat) : Nat :=
  times015 (flN n)

/-- The value of CPython's `int(n * 0.15)` for a nonnegative integer `n`
below the float-overflow threshold: truncation of the binary64 product
toward zero, i.e. the floor for nonnegative values.  (`pyInt015?` adds the
overflow path.) -/
def pyInt015 (n : Nat) : Nat :=
  pyTimes015 n / 2 ^ 55

/-- Embeds CPython's `int(n * 0.15)` on a nonnegative integer in full:
`none` models the `OverflowError` raised by the int-to-float conversion. -/
def pyInt015? (n : Nat) : Option Nat :=
  (pyFloat n).map (fun u => times015 u / 2 ^ 55)

/-! ## Phase budget (`app.py` lines 60-62)

`phase1_duration = min(10, int(total_duration * 0.15))`,
`phase3_duration = min(10, int(total_duration * 0.15))`,
`phase2_duration = total_duration - (phase1_duration + phase3_duration)`.
These lines sit outside every `try` block, so when `int(total_duration *
0.15)` raises `OverflowError` (duration at or above `2^1024 - 2^970`) no
budget is computed — modelled by `none`. -/

/-- Embeds `phase1_duration` for a positive duration. -/
def phase1Duration? (d : Nat) : Option Nat :=
  (pyInt015? d).map (fun v => min 10 v)

/-- Embeds `phase3_duration`; the source computes it by the same expression as
`phase1_duration`. -/
def phase3Duration? (d : Nat) : Option Nat :=
  (pyInt015? d).map (fun v => min 10 v)

/-- Embeds `phase2_duration = total_duration - (phase1_duration + phase3_duration)`
(Python integers, so the subtraction is over ℤ). -/
def phase2Duration? (d : Nat) : Option Int :=
  match phase1Duration? d, phase3Duration? d with
  | some p1, some p3 => some ((d : Int) - ((p1 : Int) + (p3 : Int)))
  | _, _ => none

/-- The exact-rational floor of `0.15 * d`, i.e. `⌊3d/20⌋`. -/
def exactFloor015 (d : Nat) : Nat :=
  3 * d / 20

/-! ## Model of the Python string operations used by the handler -/

/-- Drop the characters satisfying `p` from both ends of a string; the shape
shared by Python's `str.strip()` (whitespace) and `str.strip(chars)`
(character set). -/
def stripEnds (p : Char → Bool) (s : String) : String :=
  String.mk (((s.toList.dropWhile p).reverse.dropWhile p).reverse)

/-- Embeds Python's `str.strip()` with no argument: remove whitespace from
both ends. -/
def pyStrip (s : String) : String :=
  stripEnds Char.isWhitespace s

/-- Embeds Python's `str.strip(chars)`: remove from both ends every character
that occurs anywhere in `chars` — a character-set strip, not a prefix/suffix
removal. -/
def pyStripChars (s chars : String) : String :=
  stripEnds (fun c => chars.toList.contains c) s

/-- Embeds Python's `str.startswith(pre)`. -/
def pyStartsWith (s pre : String) : Bool :=
  List.isPrefixOf pre.toList s.toList

/-- Embeds Python's `str.endswith(suf)`. -/
def pyEndsWith (s suf : String) : Bool :=
  List.isPrefixOf suf.toList.reverse s.toList.reverse

/-- Embeds Python's `int(str)` coercion on ASCII inputs: surrounding
whitespace is allowed, then an optional sign followed by at least one digit;
anything else raises `ValueError` (modelled as `none`). -/
def pyIntOfString (s : String) : Option Int :=
  match (pyStrip s).toList with
  | [] => none
  | c :: rest =>
    let (neg, core) :=
      if c = '-' then (true, rest)
      else if c = '+' then (false, rest)
      else (false, c :: rest)
    if core ≠ [] ∧ core.all Char.isDigit then
      let mag : Nat := core.foldl (fun acc ch => acc * 10 + (ch.toNat - 48)) 0
      some (if neg then -(mag : Int) else (mag : Int))
    else none

/-! ## JSON values and Python dict operations -/

/-- JSON values as produced by `json.loads`. -/
inductive JVal where
  | s (str : String)
  | num (n : Int)
  | bool (b : Bool)
  | null
  | arr (xs : List JVal)
  | obj (kvs : List (String × JVal))

/-- Embeds `d.get(k)` / `k in d` lookup on a Python dict (keys are unique in
a dict produced by `json.loads`; lookup finds the first matching key). -/
def jget (kvs : List (String × JVal)) (k : String) : Option JVal :=
  (kvs.find? (fun kv => kv.1 == k)).map (fun kv => kv.2)

/-- Embeds `d[k] = v` on a Python dict: replace in place if the key exists,
else append. -/
def jset : List (String × JVal) → String → JVal → List (String × JVal)
  | [], k, v => [(k, v)]
  | (k', v') :: rest, k, v =>
    if k' == k then (k, v) :: rest else (k', v') :: jset rest k v

/-- Embeds `del d[k]` (guarded by `k in d` in the source, so deleting an
absent key never happens; on an absent key this is the identity). -/
def jdel (kvs : List (String × JVal)) (k : String) : List (String × JVal) :=
  kvs.filter (fun kv => !(kv.1 == k))

/-- Python truthiness of a JSON value: empty strings, zero, `False`, `None`,
empty lists and empty dicts are falsy. -/
def pyTruthyV : JVal → Bool
  | .s t => !(t == "")
  | .num n => !(n == 0)
  | .bool b => b
  | .null => false
  | .arr [] => false
  | .arr (_ :: _) => true
  | .obj [] => false
  | .obj (_ :: _) => true

/-- Python truthiness of `d.get(k)`: `None` (absent key) is falsy. -/
def pyTruthy : Option JVal → Bool
  | none => false
  | some v => pyTruthyV v

/-! ## Response normalizer (`app.py` lines 126-177)

The strict JSON parse (`json.loads`) is an external library call; the
pipeline is parameterized by it (`jparse`), with `none` standing for
`json.JSONDecodeError`, which is the only exception `json.loads` raises on a
string argument. -/

/-- Gateway response as consumed by the handler: the (possibly absent)
response text and the `finish_reason` names of the candidates list. -/
structure GatewayResponse where
  text : Option String
  finishReasons : List String

/-- Embeds `response.candidates[0].finish_reason.name if response.candidates
else "UNKNOWN"`. -/
def finishReasonOf (r : GatewayResponse) : String :=
  r.finishReasons.headD "UNKNOWN"

/-- Terminal outcome of the response-handling section of `generate`. -/
inductive NormOutcome where
  /-- Line 128: `"AI generation blocked or empty."`, HTTP 400. -/
  | blockedOrEmpty (finishReason : String)
  /-- Line 174: `"AI returned content, but it was not valid JSON."` with the
  raw text under the `content` key, HTTP 500. -/
  | invalidJson (content : String)
  /-- Line 169: `"... Phase 2 content is empty ..."`, HTTP 500. -/
  | primaryContentEmpty
  /-- An exception other than `json.JSONDecodeError` escapes the inner block
  and is caught by the blanket `except Exception` (line 181), HTTP 500. -/
  | unhandledError
  /-- Line 171: `jsonify(ai_json)`, HTTP 200. -/
  | success (body : List (String × JVal))

/-- HTTP status code attached to each outcome by the source. -/
def statusOf : NormOutcome → Nat
  | .blockedOrEmpty _ => 400
  | .invalidJson _ => 500
  | .primaryContentEmpty => 500
  | .unhandledError => 500
  | .success _ => 200

/-- Embeds lines 138-141: when the text starts with the opening fence tagged
`json` and ends with a closing fence, apply
`raw_output.strip("```json").strip("```").strip()` — note these are Python
character-set strips, not prefix/suffix removals. -/
def fenceStrip (rawOutput : String) : String :=
  if pyStartsWith rawOutput "```json" && pyEndsWith rawOutput "```" then
    pyStrip (pyStripChars (pyStripChars rawOutput "```json") "```")
  else rawOutput

/-- The four expected top-level keys iterated by the repair loop
(line 146). -/
def expectedKeys : List String :=
  ["phase1", "phase2", "assessment", "phase3"]

/-- Embeds `"\n".join(xs)` on a JSON array: succeeds only when every element
is a string (a non-string element raises `TypeError`, modelled as `none`). -/
def joinStrings : List JVal → Option String
  | [] => some ""
  | [.s t] => some t
  | .s t :: rest => (joinStrings rest).map (fun r => t ++ "\n" ++ r)
  | _ => none

/-- The newline-join of a list of strings described by the spec ("a single
newline-delimited string"); stated separately from the source's
`joinStrings` so the repair property can be checked against it. -/
def joinedNewline : List String → String
  | [] => ""
  | [t] => t
  | t :: rest => t ++ "\n" ++ joinedNewline rest

/-- One step of the list-safeguard loop (lines 146-148): a list value is
joined into a newline-delimited string; any other value is untouched. -/
def joinIfList : JVal → Option JVal
  | .arr xs => (joinStrings xs).map .s
  | v => some v

/-- Embeds the loop at lines 146-148 over the whole object: every entry whose
key is one of the expected keys and whose value is a list is replaced by the
newline-join of that list. -/
def listJoinRepair : List (String × JVal) → Option (List (String × JVal))
  | [] => some []
  | (k, v) :: rest =>
    match (if k ∈ expectedKeys then joinIfList v else some v), listJoinRepair rest with
    | some w, some ws => some ((k, w) :: ws)
    | _, _ => none

/-- The delimiter inserted between the main-phase content and the merged
assessment content (lines 156-160). -/
def assessmentDelim : String := "\n\n\n**ASSESSMENT**\n\n"

/-- Embeds the assessment merge (lines 150-160): when the `assessment` value
is truthy, `phase2` becomes `phase2_content.strip() + delimiter +
assessment_content.strip()`; `.strip()` on a non-string raises
`AttributeError` (modelled as `none`). -/
def mergeAssessment (kvs : List (String × JVal)) : Option (List (String × JVal)) :=
  let phase2Content := (jget kvs "phase2").getD (.s "")
  let assessmentContent := (jget kvs "assessment").getD (.s "")
  if pyTruthyV assessmentContent then
    match phase2Content, assessmentContent with
    | .s p, .s a => some (jset kvs "phase2" (.s (pyStrip p ++ assessmentDelim ++ pyStrip a)))
    | _, _ => none
  else
    some kvs

/-- The full shape repair (lines 146-165): list-join safeguard, assessment
merge, then unconditional removal of the `assessment` key. -/
def repairShape (kvs : List (String × JVal)) : Option (List (String × JVal)) :=
  (listJoinRepair kvs).bind fun kvs1 =>
    (mergeAssessment kvs1).map fun kvs2 => jdel kvs2 "assessment"

/-- Embeds lines 146-171 on the parsed JSON value: a non-object parse result,
a non-string list element, or a non-string `phase2`/`assessment` during the
merge all raise and fall to the blanket handler; otherwise the repaired
object is checked for a truthy `phase2` and returned. -/
def normalizeParsed : JVal → NormOutcome
  | .obj kvs =>
    match repairShape kvs with
    | none => .unhandledError
    | some kvs3 =>
      if pyTruthy (jget kvs3 "phase2") then .success kvs3 else .primaryContentEmpty
  | _ => .unhandledError

/-- Embeds lines 126-177: blocked/empty check on the response text, then
whitespace strip, fence strip, JSON parse and shape repair. -/
def normalize (jparse : String → Option JVal) (r : GatewayResponse) : NormOutcome :=
  if r.text.getD "" == "" then
    .blockedOrEmpty (finishReasonOf r)
  else
    match jparse (fenceStrip (pyStrip (r.text.getD ""))) with
    | none => .invalidJson (pyStrip (r.text.getD ""))
    | some j => normalizeParsed j

/-! ## Request validation before the gateway call (`app.py` lines 46-62)

`total_duration = int(data.get("duration", 70))` runs outside every
`try` block, so a value `int()` cannot coerce raises an uncaught
`ValueError`/`TypeError` that Flask turns into a generic HTTP 500; there is
no positivity check, so any coercible duration (including non-positive ones)
flows into the phase computation and on to the gateway call. -/

/-- Embeds Python `int(x)` on a JSON value: numbers pass through, booleans
coerce to 0/1, strings are parsed, everything else raises (modelled as
`none`). -/
def pyIntCoerce : JVal → Option Int
  | .num n => some n
  | .bool b => some (if b then 1 else 0)
  | .s t => pyIntOfString t
  | _ => none

/-- Embeds `int(d * 0.15)` for a (possibly negative) Python integer: the
float conversion and product are sign-symmetric, `int()` truncates toward
zero, and `none` models the `OverflowError` raised when `|d|` is at or above
the float-overflow threshold. -/
def pyInt015Int? (d : Int) : Option Int :=
  if 0 ≤ d then (pyInt015? d.toNat).map (fun v => (v : Int))
  else (pyInt015? (-d).toNat).map (fun v => -(v : Int))

/-- What the handler does with the request body before calling the gateway. -/
inductive PreGateway where
  /-- An exception escaped outside any `try` — `int(data.get("duration", 70))`
  raised `ValueError`/`TypeError` at line 55, or `total_duration * 0.15`
  raised `OverflowError` at line 60 — so Flask serves its generic 500 error
  response and the gateway is never called. -/
  | uncaughtException
  /-- Validation passed; the gateway call is reached with these phase
  durations in the prompt. -/
  | proceed (duration p1 p2 p3 : Int)
deriving DecidableEq

/-- Embeds lines 55-62: coerce the `duration` field (default 70), then derive
the three phase durations; either step can raise an uncaught exception. -/
def preGateway (body : List (String × JVal)) : PreGateway :=
  match pyIntCoerce ((jget body "duration").getD (.num 70)) with
  | none => .uncaughtException
  | some d =>
    match pyInt015Int? d with
    | none => .uncaughtException
    | some p =>
      .proceed d (min 10 p) (d - (min 10 p + min 10 p)) (min 10 p)

/-- HTTP status of the pre-gateway stage: an uncaught exception surfaces as
the framework's generic 500 page; otherwise the request proceeds (status
determined later). -/
def preStatus : PreGateway → Option Nat
  | .uncaughtException => some 500
  | .proceed _ _ _ _ => none

/-! ## Bounds on the float model -/

theorem log2Aux_spec : ∀ (fuel n : Nat), 1 ≤ n → n ≤ fuel →
    2 ^ log2Aux fuel n ≤ n ∧ n < 2 ^ (log2Aux fuel n + 1) := by
  intro fuel
  induction fuel with
  | zero => intro n h1 h2; omega
  | succ f ih =>
    intro n h1 h2
    rw [log2Aux]
    by_cases h : 2 ≤ n
    · simp only [if_pos h]
      have hrec := ih (n / 2) (by omega) (by omega)
      have e1 : (2 : Nat) ^ (log2Aux f (n / 2) + 1) = 2 ^ log2Aux f (n / 2) * 2 := pow_succ 2 _
      have e2 : (2 : Nat) ^ (log2Aux f (n / 2) + 1 + 1) = 2 ^ log2Aux f (n / 2) * 2 * 2 := by
        rw [pow_succ, pow_succ]
      constructor
      · rw [e1]; omega
      · rw [e2, ← e1]; omega
    · simp only [if_neg h]
      constructor
      · simpa using h1
      · have : n < 2 := by omega
        simpa using this

theorem natLog2_spec (n : Nat) (h : 1 ≤ n) :
    2 ^ natLog2 n ≤ n ∧ n < 2 ^ (natLog2 n + 1) :=
  log2Aux_spec n n h le_rfl

theorem rnd53_ge (t s : Nat) (hs : 1 ≤ s) : 2 * t ≤ 2 * rnd53 t s + 2 ^ s := by
  unfold rnd53
  have hp : 0 < 2 ^ s := Nat.pow_pos (by norm_num)
  have hdm := Nat.div_add_mod t (2 ^ s)
  have hrlt : t % 2 ^ s < 2 ^ s := Nat.mod_lt _ hp
  have heven : 2 ^ s % 2 = 0 := by
    have e : (2 : Nat) ^ s = 2 ^ (s - 1) * 2 := by
      rw [← pow_succ]
      congr 1
      omega
    omega
  have hexp : (t / 2 ^ s + 1) * 2 ^ s = t / 2 ^ s * 2 ^ s + 2 ^ s := by ring
  have hcomm : 2 ^ s * (t / 2 ^ s) = t / 2 ^ s * 2 ^ s := by ring
  rw [hcomm] at hdm
  rw [hexp]
  generalize t / 2 ^ s * 2 ^ s = B at hdm ⊢
  split_ifs <;> omega

theorem flN_lb (t : Nat) : 2 ^ 53 * t ≤ 2 ^ 53 * flN t + t := by
  unfold flN
  split_ifs with h
  · omega
  · have h1 : 1 ≤ t := by omega
    have hspec := natLog2_spec t h1
    have h53 : 53 ≤ natLog2 t := by
      by_contra hc
      push_neg at hc
      have hle : (2 : Nat) ^ (natLog2 t + 1) ≤ 2 ^ 53 :=
        Nat.pow_le_pow_right (by norm_num) (by omega)
      omega
    have hs : 1 ≤ natLog2 t - 52 := by omega
    have hr := rnd53_ge t (natLog2 t - 52) hs
    have hmul : 2 ^ 52 * (2 * t) ≤
        2 ^ 52 * (2 * rnd53 t (natLog2 t - 52) + 2 ^ (natLog2 t - 52)) :=
      Nat.mul_le_mul_left _ hr
    have hsplit : 2 ^ 52 * (2 * rnd53 t (natLog2 t - 52) + 2 ^ (natLog2 t - 52))
        = 2 ^ 53 * rnd53 t (natLog2 t - 52) + 2 ^ natLog2 t := by
      rw [Nat.mul_add]
      congr 1
      · norm_num
        ring
      · rw [← pow_add]
        congr 1
        omega
    have h52 : 2 ^ 52 * (2 * t) = 2 ^ 53 * t := by norm_num; ring
    rw [hsplit, h52] at hmul
    have hLt : 2 ^ natLog2 t ≤ t := hspec.1
    generalize rnd53 t (natLog2 t - 52) = R at *
    generalize 2 ^ natLog2 t = E at *
    omega

theorem rnd53_ge_floor (t s : Nat) : t / 2 ^ s * 2 ^ s ≤ rnd53 t s := by
  unfold rnd53
  have e : (t / 2 ^ s + 1) * 2 ^ s = t / 2 ^ s * 2 ^ s + 2 ^ s := by ring
  split_ifs <;> first | exact Nat.le_refl _ | (rw [e]; exact Nat.le_add_right _ _)

theorem rnd53_le (t s : Nat) : rnd53 t s ≤ t / 2 ^ s * 2 ^ s + 2 ^ s := by
  unfold rnd53
  have e : (t / 2 ^ s + 1) * 2 ^ s = t / 2 ^ s * 2 ^ s + 2 ^ s := by ring
  split_ifs <;> first | exact Nat.le_add_right _ _ | rw [e]

theorem natLog2_eq_of (d B : Nat) (h1 : 2 ^ B ≤ d) (h2 : d < 2 ^ (B + 1)) :
    natLog2 d = B := by
  have hd : 1 ≤ d := le_trans (Nat.one_le_two_pow) h1
  have hs := natLog2_spec d hd
  rcases Nat.lt_trichotomy (natLog2 d) B with hlt | heq | hgt
  · have hb : (2 : Nat) ^ (natLog2 d + 1) ≤ 2 ^ B :=
      Nat.pow_le_pow_right (by norm_num) (by omega)
    omega
  · exact heq
  · have hb : (2 : Nat) ^ (B + 1) ≤ 2 ^ natLog2 d :=
      Nat.pow_le_pow_right (by norm_num) (by omega)
    omega

/-- CPython's int-to-float conversion overflows exactly at `2^1024 - 2^970`:
at or above it the rounded value reaches `2^1024`. -/
theorem flN_overflow (d : Nat) (hd : 2 ^ 1024 - 2 ^ 970 ≤ d) : 2 ^ 1024 ≤ flN d := by
  have hp53 : (2 : Nat) ^ 53 ≤ 2 ^ 1023 := Nat.pow_le_pow_right (by norm_num) (by norm_num)
  have hp970 : (2 : Nat) ^ 970 ≤ 2 ^ 1023 := Nat.pow_le_pow_right (by norm_num) (by norm_num)
  have e3 : (2 : Nat) ^ 1024 = 2 ^ 1023 * 2 := pow_succ 2 1023
  rw [flN, if_neg (by omega)]
  rcases Nat.lt_or_ge d (2 ^ 1024) with hlt | hge
  · -- middle binade: 2^1023 ≤ d < 2^1024, rounding carries up to 2^1024
    have hlo : 2 ^ 1023 ≤ d := by omega
    have hL : natLog2 d = 1023 := natLog2_eq_of d 1023 hlo (by omega)
    rw [hL]
    show 2 ^ 1024 ≤ rnd53 d 971
    unfold rnd53
    split_ifs <;> omega
  · -- d at or above 2^1024: the floor grid point is already at least 2^1024
    have hone : 1 ≤ d := by omega
    have hspec := natLog2_spec d hone
    have hL : 1024 ≤ natLog2 d := by
      by_contra hc
      push_neg at hc
      have hb : (2 : Nat) ^ (natLog2 d + 1) ≤ 2 ^ 1024 :=
        Nat.pow_le_pow_right (by norm_num) (by omega)
      omega
    have hdiv : 2 ^ 52 ≤ d / 2 ^ (natLog2 d - 52) := by
      have hmono : 2 ^ natLog2 d / 2 ^ (natLog2 d - 52) ≤ d / 2 ^ (natLog2 d - 52) :=
        Nat.div_le_div_right hspec.1
      rw [Nat.pow_div (by omega) (by norm_num),
        show natLog2 d - (natLog2 d - 52) = 52 by omega] at hmono
      exact hmono
    calc (2 : Nat) ^ 1024
        ≤ 2 ^ natLog2 d := Nat.pow_le_pow_right (by norm_num) hL
      _ = 2 ^ 52 * 2 ^ (natLog2 d - 52) := by
          rw [← pow_add]
          congr 1
          omega
      _ ≤ d / 2 ^ (natLog2 d - 52) * 2 ^ (natLog2 d - 52) :=
          Nat.mul_le_mul_right _ hdiv
      _ ≤ rnd53 d (natLog2 d - 52) := rnd53_ge_floor d _

/-- Below `2^1024 - 2^970` the int-to-float conversion stays finite. -/
theorem flN_no_overflow (d : Nat) (hd : d < 2 ^ 1024 - 2 ^ 970) : flN d < 2 ^ 1024 := by
  have hp53 : (2 : Nat) ^ 53 ≤ 2 ^ 1023 := Nat.pow_le_pow_right (by norm_num) (by norm_num)
  have e3 : (2 : Nat) ^ 1024 = 2 ^ 1023 * 2 := pow_succ 2 1023
  rw [flN]
  split_ifs with h
  · omega
  · push_neg at h
    rcases Nat.lt_or_ge d (2 ^ 1023) with hsmall | hbig
    · -- low binades: rounding moves the value by less than itself
      have hspec := natLog2_spec d (by omega)
      have hub := rnd53_le d (natLog2 d - 52)
      have hfl : d / 2 ^ (natLog2 d - 52) * 2 ^ (natLog2 d - 52) ≤ d :=
        Nat.div_mul_le_self _ _
      have hsle : (2 : Nat) ^ (natLog2 d - 52) ≤ 2 ^ natLog2 d :=
        Nat.pow_le_pow_right (by norm_num) (by omega)
      have hLd : 2 ^ natLog2 d ≤ d := hspec.1
      generalize rnd53 d (natLog2 d - 52) = R at hub ⊢
      generalize d / 2 ^ (natLog2 d - 52) * 2 ^ (natLog2 d - 52) = B at hub hfl
      generalize (2 : Nat) ^ (natLog2 d - 52) = S at hub hsle
      generalize (2 : Nat) ^ natLog2 d = E at hsle hLd
      omega
    · -- top binade below the threshold: the rounded value stays at most
      -- the largest finite double
      have hL : natLog2 d = 1023 := natLog2_eq_of d 1023 hbig (by omega)
      rw [hL]
      show rnd53 d 971 < 2 ^ 1024
      unfold rnd53
      split_ifs <;> omega

theorem pyInt015_ge_ten (d : Nat) (hd : 67 ≤ d) : 10 ≤ pyInt015 d := by
  have h1 := flN_lb d
  have h2 := flN_lb (flN d * M015)
  have hu : 2 ^ 53 * 67 ≤ 2 ^ 53 * d := Nat.mul_le_mul_left _ hd
  -- from h1: (2^53 - 1) * d ≤ 2^53 * flN d
  have hA : (2 ^ 53 - 1) * d ≤ 2 ^ 53 * flN d := by omega
  -- from h2: (2^53 - 1) * (flN d * M015) ≤ 2^53 * flN (flN d * M015)
  have hB : (2 ^ 53 - 1) * (flN d * M015) ≤ 2 ^ 53 * flN (flN d * M015) := by
    generalize flN d * M015 = w at h2 ⊢
    omega
  have hchain : (2 ^ 53 - 1) * ((2 ^ 53 - 1) * 67 * M015) ≤
      2 ^ 53 * (2 ^ 53 * flN (flN d * M015)) := by
    calc (2 ^ 53 - 1) * ((2 ^ 53 - 1) * 67 * M015)
        ≤ (2 ^ 53 - 1) * ((2 ^ 53 - 1) * d * M015) := by
          apply Nat.mul_le_mul_left
          apply Nat.mul_le_mul_right
          exact Nat.mul_le_mul_left _ hd
      _ ≤ (2 ^ 53 - 1) * (2 ^ 53 * flN d * M015) := by
          apply Nat.mul_le_mul_left
          exact Nat.mul_le_mul_right _ hA
      _ = (2 ^ 53 - 1) * (flN d * M015) * 2 ^ 53 := by ring
      _ ≤ 2 ^ 53 * flN (flN d * M015) * 2 ^ 53 := Nat.mul_le_mul_right _ hB
      _ = 2 ^ 53 * (2 ^ 53 * flN (flN d * M015)) := by ring
  have hK : 2 ^ 106 * (10 * 2 ^ 55) ≤ (2 ^ 53 - 1) * ((2 ^ 53 - 1) * 67 * M015) := by
    norm_num [M015]
  have hfin : 2 ^ 106 * (10 * 2 ^ 55) ≤ 2 ^ 106 * flN (flN d * M015) := by
    have e : 2 ^ 53 * (2 ^ 53 * flN (flN d * M015)) = 2 ^ 106 * flN (flN d * M015) := by
      ring_nf
    omega
  have hX : 10 * 2 ^ 55 ≤ flN (flN d * M015) :=
    Nat.le_of_mul_le_mul_left hfin (by norm_num)
  unfold pyInt015 pyTimes015
  rw [Nat.le_div_iff_mul_le (by norm_num)]
  exact hX

theorem pyInt015_eq_exact_small : ∀ d, d < 67 → pyInt015 d = exactFloor015 d := by
  decide

theorem exactFloor015_ge_ten (d : Nat) (hd : 67 ≤ d) : 10 ≤ exactFloor015 d := by
  unfold exactFloor015
  rw [Nat.le_div_iff_mul_le (by norm_num)]
  omega

/-- The int-to-float conversion succeeds below the overflow threshold, and
`int(n * 0.15)` computes the total core value. -/
theorem pyInt015?_below (n : Nat) (h : n < 2 ^ 1024 - 2 ^ 970) :
    pyInt015? n = some (pyInt015 n) := by
  have hf : flN n < 2 ^ 1024 := flN_no_overflow n h
  unfold pyInt015? pyFloat
  rw [if_pos hf, Option.map_some']
  rfl

/-- At or above the overflow threshold, `int(n * 0.15)` raises
`OverflowError`. -/
theorem pyInt015?_above (n : Nat) (h : 2 ^ 1024 - 2 ^ 970 ≤ n) :
    pyInt015? n = none := by
  have hf : 2 ^ 1024 ≤ flN n := flN_overflow n h
  unfold pyInt015? pyFloat
  rw [if_neg (by omega)]
  rfl

/-- C2 (amended): for every positive duration below the float-overflow
threshold `2^1024 - 2^970`, the phase budget satisfies
`phase1 = min(10, floor(0.15*duration))` with the exact-rational floor,
`phase3` likewise, `phase2 = duration - phase1 - phase3`, and the three
phases sum to the duration (the `min 10` cap absorbs the float drift of
`int(duration * 0.15)`).  At or above the threshold the int-to-float
conversion at line 60 raises an uncaught `OverflowError`, so no budget is
computed. -/
theorem phase_budget_correct (d : Nat) (hpos : 0 < d) :
    (d < 2 ^ 1024 - 2 ^ 970 →
      phase1Duration? d = some (min 10 (exactFloor015 d)) ∧
      phase3Duration? d = some (min 10 (exactFloor015 d)) ∧
      phase2Duration? d = some ((d : Int)
        - ((min 10 (exactFloor015 d) : Int) + (min 10 (exactFloor015 d) : Int))) ∧
      (min 10 (exactFloor015 d) : Int)
          + ((d : Int)
            - ((min 10 (exactFloor015 d) : Int) + (min 10 (exactFloor015 d) : Int)))
          + (min 10 (exactFloor015 d) : Int) = (d : Int)) ∧
    (2 ^ 1024 - 2 ^ 970 ≤ d →
      phase1Duration? d = none ∧ phase3Duration? d = none ∧
      phase2Duration? d = none) := by
  constructor
  · intro hlt
    have hint : pyInt015? d = some (pyInt015 d) := pyInt015?_below d hlt
    have hmin : min 10 (pyInt015 d) = min 10 (exactFloor015 d) := by
      by_cases h : d < 67
      · rw [pyInt015_eq_exact_small d h]
      · rw [Nat.min_eq_left (pyInt015_ge_ten d (by omega)),
          Nat.min_eq_left (exactFloor015_ge_ten d (by omega))]
    have h1 : phase1Duration? d = some (min 10 (exactFloor015 d)) := by
      unfold phase1Duration?
      rw [hint, Option.map_some', hmin]
    have h3 : phase3Duration? d = some (min 10 (exactFloor015 d)) := by
      unfold phase3Duration?
      rw [hint, Option.map_some', hmin]
    refine ⟨h1, h3, ?_, by ring⟩
    unfold phase2Duration?
    rw [h1, h3]
    simp [Nat.cast_min]
  · intro hge
    have hint : pyInt015? d = none := pyInt015?_above d hge
    have h1 : phase1Duration? d = none := by
      unfold phase1Duration?
      rw [hint]
      rfl
    have h3 : phase3Duration? d = none := by
      unfold phase3Duration?
      rw [hint]
      rfl
    refine ⟨h1, h3, ?_⟩
    unfold phase2Duration?
    rw [h1]

/-- C2 witness: at the spec's example duration 40 the theorem applies and the
budget is `phase1 = 6, phase2 = 28, phase3 = 6`. -/
theorem phase_budget_correct_witness :
    (0 < 40 ∧ (40 : Nat) < 2 ^ 1024 - 2 ^ 970) ∧
    phase1Duration? 40 = some (min 10 (exactFloor015 40)) ∧
    phase1Duration? 40 = some 6 ∧ phase2Duration? 40 = some 28 ∧
    phase3Duration? 40 = some 6 := by
  have h40 : (40 : Nat) < 2 ^ 1024 - 2 ^ 970 := by decide
  refine ⟨⟨by norm_num, h40⟩,
    ((phase_budget_correct 40 (by norm_num)).1 h40).1, by decide, by decide, by decide⟩

/-- C2 counterexample: the claim's parenthetical — that the floating-point
`int(duration * 0.15)` equals the exact-rational floor for every positive
integer duration — fails at duration `7898374379804573`, where the float
product rounds up across the integer boundary: the code computes
`1184756156970686` but the exact floor is `1184756156970685`. -/
theorem pyInt015_ne_exact_floor :
    0 < 7898374379804573 ∧
    pyInt015 7898374379804573 = 1184756156970686 ∧
    exactFloor015 7898374379804573 = 1184756156970685 ∧
    pyInt015 7898374379804573 ≠ exactFloor015 7898374379804573 := by
  refine ⟨by norm_num, by decide, by decide, by decide⟩

/-! ## Supporting lemmas on the string and dict operations -/

theorem jget_jdel_self (kvs : List (String × JVal)) (k : String) :
    jget (jdel kvs k) k = none := by
  have h : List.find? (fun kv => kv.1 == k) (jdel kvs k) = none := by
    rw [List.find?_eq_none]
    intro kv hmem
    have hk := (List.mem_filter.mp hmem).2
    simp only [Bool.not_eq_true'] at hk
    simp [hk]
  simp [jget, h]

theorem stripEnds_isInfixOf (p : Char → Bool) (s : String) :
    List.IsInfix (stripEnds p s).toList s.toList := by
  obtain ⟨u, hu⟩ : ∃ u, u ++ s.toList.dropWhile p = s.toList :=
    ⟨s.toList.takeWhile p, List.takeWhile_append_dropWhile p s.toList⟩
  obtain ⟨v, hv⟩ : ∃ v,
      v ++ (s.toList.dropWhile p).reverse.dropWhile p = (s.toList.dropWhile p).reverse :=
    ⟨(s.toList.dropWhile p).reverse.takeWhile p,
      List.takeWhile_append_dropWhile p (s.toList.dropWhile p).reverse⟩
  refine ⟨u, v.reverse, ?_⟩
  have hm : s.toList.dropWhile p
      = ((s.toList.dropWhile p).reverse.dropWhile p).reverse ++ v.reverse := by
    have hc := congrArg List.reverse hv
    simpa [List.reverse_append] using hc.symm
  have htl : (stripEnds p s).toList
      = ((s.toList.dropWhile p).reverse.dropWhile p).reverse := rfl
  rw [htl, List.append_assoc, ← hm, hu]

theorem pyStrip_isInfixOf (s : String) :
    List.IsInfix (pyStrip s).toList s.toList :=
  stripEnds_isInfixOf Char.isWhitespace s

theorem pyStripChars_isInfixOf (s chars : String) :
    List.IsInfix (pyStripChars s chars).toList s.toList :=
  stripEnds_isInfixOf (fun c => chars.toList.contains c) s

theorem append_delim_ne_empty (u v : String) :
    u ++ assessmentDelim ++ v ≠ "" := by
  intro h
  have hl := congrArg String.length h
  rw [String.length_append, String.length_append] at hl
  have hd : assessmentDelim.length = 19 := rfl
  have he : ("" : String).length = 0 := rfl
  omega

theorem mergeAssessment_strings (kvs : List (String × JVal)) (p a : String)
    (hp : jget kvs "phase2" = some (.s p)) (ha : jget kvs "assessment" = some (.s a))
    (hane : a ≠ "") :
    mergeAssessment kvs
      = some (jset kvs "phase2" (.s (pyStrip p ++ assessmentDelim ++ pyStrip a))) := by
  unfold mergeAssessment
  rw [hp, ha]
  have hb : (a == "") = false := beq_eq_false_iff_ne.mpr hane
  simp [pyTruthyV, hb]

/-- C1: parsing an object of the form
`(phase1 = x, phase2 = [a, b], assessment = q, phase3 = y)` with a non-empty
assessment produces a body with no `assessment` key whose `phase2` is the
newline-join of the list followed by the `**ASSESSMENT**` delimiter and the
assessment content, both sides whitespace-stripped. -/
theorem merge_assessment_into_phase2 (x a b q y : String) (hq : q ≠ "") :
    normalizeParsed (.obj [("phase1", .s x), ("phase2", .arr [.s a, .s b]),
        ("assessment", .s q), ("phase3", .s y)])
      = .success [("phase1", .s x),
          ("phase2", .s (pyStrip (a ++ "\n" ++ b) ++ assessmentDelim ++ pyStrip q)),
          ("phase3", .s y)] := by
  have h2 : mergeAssessment [("phase1", .s x), ("phase2", .s (a ++ "\n" ++ b)),
      ("assessment", .s q), ("phase3", .s y)]
      = some [("phase1", .s x),
          ("phase2", .s (pyStrip (a ++ "\n" ++ b) ++ assessmentDelim ++ pyStrip q)),
          ("assessment", .s q), ("phase3", .s y)] :=
    mergeAssessment_strings _ _ _ rfl rfl hq
  have h3 : repairShape [("phase1", .s x), ("phase2", .arr [.s a, .s b]),
      ("assessment", .s q), ("phase3", .s y)]
      = some [("phase1", .s x),
          ("phase2", .s (pyStrip (a ++ "\n" ++ b) ++ assessmentDelim ++ pyStrip q)),
          ("phase3", .s y)] := by
    unfold repairShape
    rw [show listJoinRepair [("phase1", .s x), ("phase2", .arr [.s a, .s b]),
        ("assessment", .s q), ("phase3", .s y)]
        = some [("phase1", .s x), ("phase2", .s (a ++ "\n" ++ b)),
            ("assessment", .s q), ("phase3", .s y)] from rfl]
    rw [Option.some_bind, h2]
    rfl
  have ht : pyTruthy (jget [("phase1", .s x),
      ("phase2", .s (pyStrip (a ++ "\n" ++ b) ++ assessmentDelim ++ pyStrip q)),
      ("phase3", .s y)] "phase2") = true := by
    have hb : ((pyStrip (a ++ "\n" ++ b) ++ assessmentDelim ++ pyStrip q) == "") = false :=
      beq_eq_false_iff_ne.mpr (append_delim_ne_empty _ _)
    simp [jget, pyTruthy, pyTruthyV, hb]
  simp [normalizeParsed, h3, ht]

/-- C1 witness: the spec's concrete example yields exactly
`"a\nb\n\n\n**ASSESSMENT**\n\nq1"` and no `assessment` key in the output. -/
theorem merge_assessment_into_phase2_witness :
    ("q1" : String) ≠ "" ∧
    normalizeParsed (.obj [("phase1", .s "x"), ("phase2", .arr [.s "a", .s "b"]),
        ("assessment", .s "q1"), ("phase3", .s "y")])
      = .success [("phase1", .s "x"),
          ("phase2", .s "a\nb\n\n\n**ASSESSMENT**\n\nq1"),
          ("phase3", .s "y")] := by
  refine ⟨by decide, ?_⟩
  rw [merge_assessment_into_phase2 "x" "a" "b" "q1" "y" (by decide)]
  rfl

/-- A coercible duration at or above the float-overflow threshold makes the
phase computation at line 60 raise an uncaught `OverflowError`: the
framework's generic 500, and the gateway is never called. -/
theorem preGateway_overflow (body : List (String × JVal)) (v : JVal) (n : Int)
    (hv : jget body "duration" = some v) (hc : pyIntCoerce v = some n)
    (hge : 2 ^ 1024 - 2 ^ 970 ≤ n.natAbs) :
    preGateway body = .uncaughtException ∧
    preStatus (preGateway body) = some 500 := by
  have hnone : pyInt015Int? n = none := by
    unfold pyInt015Int?
    split_ifs with hs
    · have e : n.toNat = n.natAbs := by omega
      rw [e, pyInt015?_above n.natAbs hge]
      rfl
    · have e : (-n).toNat = n.natAbs := by omega
      rw [e, pyInt015?_above n.natAbs hge]
      rfl
  have hres : preGateway body = .uncaughtException := by
    unfold preGateway
    rw [hv]
    simp [hc, hnone]
  exact ⟨hres, by rw [hres]; rfl⟩

/-- C3 (amended): `int(data.get("duration", 70))` and the phase computation
run outside every `try` block, so a `duration` that does not coerce raises an
uncaught `ValueError`/`TypeError` that surfaces as the framework's generic
500 — not a 400 client error — and the gateway is never reached.  A coercible
duration whose magnitude is below the float-overflow threshold
`2^1024 - 2^970`, including any non-positive one, passes validation and
reaches the gateway call; a coercible duration at or above the threshold
raises an uncaught `OverflowError` at line 60, again the generic 500 with no
gateway call. -/
theorem duration_validation (body : List (String × JVal)) (v : JVal)
    (hv : jget body "duration" = some v) :
    (pyIntCoerce v = none →
        preGateway body = .uncaughtException ∧
        preStatus (preGateway body) = some 500) ∧
    (∀ n : Int, pyIntCoerce v = some n → n.natAbs < 2 ^ 1024 - 2 ^ 970 →
        ∃ p : Int, pyInt015Int? n = some p ∧
          preGateway body
            = .proceed n (min 10 p) (n - (min 10 p + min 10 p)) (min 10 p)) ∧
    (∀ n : Int, pyIntCoerce v = some n → 2 ^ 1024 - 2 ^ 970 ≤ n.natAbs →
        preGateway body = .uncaughtException ∧
        preStatus (preGateway body) = some 500) := by
  refine ⟨?_, ?_, ?_⟩
  · intro hc
    unfold preGateway
    rw [hv]
    simp [hc, preStatus]
  · intro n hc hlt
    have hsome : ∃ p : Int, pyInt015Int? n = some p := by
      unfold pyInt015Int?
      split_ifs with hs
      · have e : n.toNat = n.natAbs := by omega
        rw [e, pyInt015?_below n.natAbs hlt]
        exact ⟨(pyInt015 n.natAbs : Int), rfl⟩
      · have e : (-n).toNat = n.natAbs := by omega
        rw [e, pyInt015?_below n.natAbs hlt]
        exact ⟨-(pyInt015 n.natAbs : Int), rfl⟩
    obtain ⟨p, hp⟩ := hsome
    refine ⟨p, hp, ?_⟩
    unfold preGateway
    rw [hv]
    simp [hc, hp]
  · intro n hc hge
    exact preGateway_overflow body v n hv hc hge

/-- C3 witness: a request with `duration = "x"` hits the uncaught-exception
path, and one with `duration = 40` reaches the gateway. -/
theorem duration_validation_witness :
    (jget [("duration", JVal.s "x")] "duration" = some (.s "x") ∧
      pyIntCoerce (.s "x") = none ∧
      preGateway [("duration", JVal.s "x")] = .uncaughtException) ∧
    (jget [("duration", JVal.num 40)] "duration" = some (.num 40) ∧
      (40 : Int).natAbs < 2 ^ 1024 - 2 ^ 970 ∧
      ∃ p : Int, pyInt015Int? 40 = some p ∧
        preGateway [("duration", JVal.num 40)]
          = .proceed 40 (min 10 p) (40 - (min 10 p + min 10 p)) (min 10 p)) := by
  refine ⟨⟨rfl, rfl,
      ((duration_validation [("duration", JVal.s "x")] (.s "x") rfl).1 rfl).1⟩,
    rfl, by decide, ?_⟩
  exact (duration_validation [("duration", JVal.num 40)] (.num 40) rfl).2.1 40 rfl (by decide)

/-- C3 counterexample: `duration = "abc"` produces the framework's generic
500 (an uncaught `ValueError`), not the claimed 400 client error;
`duration = -5` is not rejected — the handler proceeds to the gateway with
phase budget `(0, -5, 0)`; and the coercible duration `2^1024` never reaches
the gateway either, raising `OverflowError` at line 60. -/
theorem duration_validation_counterexample :
    preGateway [("duration", JVal.s "abc")] = .uncaughtException ∧
    preStatus (preGateway [("duration", JVal.s "abc")]) = some 500 ∧
    (500 : Nat) ≠ 400 ∧
    preGateway [("duration", JVal.num (-5))] = .proceed (-5) 0 (-5) 0 ∧
    preGateway [("duration", JVal.num ((2 ^ 1024 : Nat) : Int))] = .uncaughtException := by
  refine ⟨rfl, rfl, by norm_num, rfl, ?_⟩
  exact (preGateway_overflow [("duration", JVal.num ((2 ^ 1024 : Nat) : Int))]
    (JVal.num ((2 ^ 1024 : Nat) : Int)) ((2 ^ 1024 : Nat) : Int) rfl rfl (by omega)).1

/-- C4: the guard at line 138 is a correct prefix/suffix check, but
`strip("```json")` then removes every leading/trailing character from the
set `(backtick, j, s, o, n)`: on the fenced text `"```jsonnull```"` the code
produces `"ull"`, corrupting the enclosed content `"null"` whose first
character belongs to the delimiter character set. -/
theorem fence_strip_corrupts_content :
    pyStartsWith "```jsonnull```" "```json" = true ∧
    pyEndsWith "```jsonnull```" "```" = true ∧
    fenceStrip "```jsonnull```" = "ull" ∧
    "ull" ≠ "null" :=
  ⟨rfl, rfl, rfl, by decide⟩

/-- C5 (amended): no cosmetic-cleanup step exists; the only pre-parse
transformations (whitespace strip and fence strip) remove characters from
the two ends of the text only, so every interior character — emphasis
markup included — reaches the JSON parser unchanged. -/
theorem cleaned_text_only_trims (t : String) :
    List.IsInfix (fenceStrip (pyStrip t)).toList t.toList := by
  have h1 := pyStrip_isInfixOf t
  unfold fenceStrip
  split_ifs with hc
  · exact ((pyStrip_isInfixOf _).trans
      ((pyStripChars_isInfixOf _ _).trans
        ((pyStripChars_isInfixOf _ _).trans h1)))
  · exact h1

/-- C5 counterexample: emphasis markup `**` in the model text survives to the
parser input and to the successful 200 body, so no cosmetic-cleanup step
strips it. -/
theorem no_cosmetic_cleanup_counterexample :
    fenceStrip (pyStrip "\x7b\"phase2\": \"**Heading** body\"\x7d")
      = "\x7b\"phase2\": \"**Heading** body\"\x7d" ∧
    normalize
      (fun t => if t = "\x7b\"phase2\": \"**Heading** body\"\x7d"
        then some (.obj [("phase2", .s "**Heading** body")]) else none)
      ⟨some "\x7b\"phase2\": \"**Heading** body\"\x7d", []⟩
      = .success [("phase2", .s "**Heading** body")] :=
  ⟨rfl, rfl⟩

/-- C6: whenever the gateway response text is empty or absent, the handler
returns the blocked-or-empty outcome carrying the provider's finish reason
with HTTP 400, and the result does not depend on the JSON parser — parsing
is never attempted. -/
theorem blocked_or_empty_check (jparse jparse' : String → Option JVal)
    (r : GatewayResponse) (h : r.text.getD "" = "") :
    normalize jparse r = .blockedOrEmpty (finishReasonOf r) ∧
    statusOf (normalize jparse r) = 400 ∧
    normalize jparse r = normalize jparse' r := by
  have e : ∀ jp : String → Option JVal,
      normalize jp r = .blockedOrEmpty (finishReasonOf r) := by
    intro jp
    unfold normalize
    rw [h]
    rfl
  refine ⟨e jparse, ?_, (e jparse).trans (e jparse').symm⟩
  rw [e jparse]
  rfl

/-- C6 witness: raw text `""` with finish reason `SAFETY` yields
`BlockedOrEmpty("SAFETY")` for any parser. -/
theorem blocked_or_empty_check_witness :
    ((⟨some "", ["SAFETY"]⟩ : GatewayResponse).text.getD "" = "") ∧
    normalize (fun _ => none) ⟨some "", ["SAFETY"]⟩ = .blockedOrEmpty "SAFETY" :=
  ⟨rfl, (blocked_or_empty_check (fun _ => none) (fun _ => some .null)
      ⟨some "", ["SAFETY"]⟩ rfl).1⟩

/-- C7: for a non-empty raw text whose cleaned form the JSON parser rejects,
the outcome is the invalid-JSON error with HTTP 500 and the raw (stripped)
text is carried in the outcome under the `content` key — never discarded. -/
theorem invalid_json_keeps_raw (jparse : String → Option JVal) (r : GatewayResponse)
    (hne : ¬ r.text.getD "" = "")
    (hfail : jparse (fenceStrip (pyStrip (r.text.getD ""))) = none) :
    normalize jparse r = .invalidJson (pyStrip (r.text.getD "")) ∧
    statusOf (normalize jparse r) = 500 := by
  have hb : (r.text.getD "" == "") = false := beq_eq_false_iff_ne.mpr hne
  have e : normalize jparse r = .invalidJson (pyStrip (r.text.getD "")) := by
    unfold normalize
    rw [hb, hfail]
    rfl
  exact ⟨e, by rw [e]; rfl⟩

/-- C7 witness: the spec's invalid text is returned intact in the failure
value. -/
theorem invalid_json_keeps_raw_witness :
    ¬ ((⟨some "\x7bphase1: oops", []⟩ : GatewayResponse).text.getD "" = "") ∧
    normalize (fun _ => none) ⟨some "\x7bphase1: oops", []⟩
      = .invalidJson "\x7bphase1: oops" :=
  ⟨by decide,
    (invalid_json_keeps_raw (fun _ => none) ⟨some "\x7bphase1: oops", []⟩
      (by decide) rfl).1⟩

/-- C8: once the shape repair has produced an object, an empty (or absent)
`phase2` yields the primary-content-empty failure with HTTP 500 and never a
success; a non-empty `phase2` — in particular one made non-empty by the
assessment merge — yields success. -/
theorem primary_content_empty_check (kvs kvs3 : List (String × JVal))
    (h : repairShape kvs = some kvs3) :
    ((jget kvs3 "phase2" = none ∨ jget kvs3 "phase2" = some (.s "")) →
        normalizeParsed (.obj kvs) = .primaryContentEmpty ∧
        statusOf (normalizeParsed (.obj kvs)) = 500) ∧
    (∀ p2s : String, jget kvs3 "phase2" = some (.s p2s) → p2s ≠ "" →
        normalizeParsed (.obj kvs) = .success kvs3 ∧
        statusOf (normalizeParsed (.obj kvs)) = 200) := by
  constructor
  · intro hempty
    have ht : pyTruthy (jget kvs3 "phase2") = false := by
      rcases hempty with he | he <;> rw [he] <;> simp [pyTruthy, pyTruthyV]
    have e : normalizeParsed (.obj kvs) = .primaryContentEmpty := by
      simp [normalizeParsed, h, ht]
    exact ⟨e, by rw [e]; rfl⟩
  · intro p2s hp hne
    have ht : pyTruthy (jget kvs3 "phase2") = true := by
      rw [hp]
      simp [pyTruthy, pyTruthyV, beq_eq_false_iff_ne.mpr hne]
    have e : normalizeParsed (.obj kvs) = .success kvs3 := by
      simp [normalizeParsed, h, ht]
    exact ⟨e, by rw [e]; rfl⟩

/-- C8 witness: an object whose `phase2` is the empty string fails with
primary-content-empty, while one whose `phase2` became non-empty through the
assessment merge succeeds. -/
theorem primary_content_empty_check_witness :
    (repairShape [("phase2", JVal.s "")] = some [("phase2", JVal.s "")] ∧
      normalizeParsed (.obj [("phase2", JVal.s "")]) = .primaryContentEmpty) ∧
    (repairShape [("phase2", JVal.s ""), ("assessment", JVal.s "q")]
        = some [("phase2", JVal.s "\n\n\n**ASSESSMENT**\n\nq")] ∧
      normalizeParsed (.obj [("phase2", JVal.s ""), ("assessment", JVal.s "q")])
        = .success [("phase2", JVal.s "\n\n\n**ASSESSMENT**\n\nq")]) := by
  refine ⟨⟨rfl, ?_⟩, ⟨rfl, ?_⟩⟩
  · exact ((primary_content_empty_check [("phase2", JVal.s "")]
      [("phase2", JVal.s "")] rfl).1 (Or.inr rfl)).1
  · exact ((primary_content_empty_check [("phase2", JVal.s ""), ("assessment", JVal.s "q")]
      [("phase2", JVal.s "\n\n\n**ASSESSMENT**\n\nq")] rfl).2
      "\n\n\n**ASSESSMENT**\n\nq" rfl (by decide)).1

theorem jget_cons (k0 : String) (v0 : JVal) (rest : List (String × JVal)) (k : String) :
    jget ((k0, v0) :: rest) k = if k0 == k then some v0 else jget rest k := by
  by_cases h : k0 == k
  · simp [jget, List.find?, h]
  · have hb : (k0 == k) = false := by simpa using h
    simp [jget, List.find?, hb]

theorem joinStrings_map (xs : List String) :
    joinStrings (xs.map JVal.s) = some (joinedNewline xs) := by
  induction xs with
  | nil => rfl
  | cons t rest ih =>
    cases rest with
    | nil => rfl
    | cons u rest2 =>
      show (joinStrings ((u :: rest2).map JVal.s)).map (fun r => t ++ "\n" ++ r)
          = some (t ++ "\n" ++ joinedNewline (u :: rest2))
      rw [ih]
      rfl

/-- C9: for every expected top-level key, a value that arrived as a sequence
of strings is repaired to the single newline-joined string, and a value that
arrived as a string is left unchanged by the list-join step. -/
theorem list_join_repair_values (kvs : List (String × JVal)) :
    ∀ (kvsR : List (String × JVal)) (k : String),
      listJoinRepair kvs = some kvsR → k ∈ expectedKeys →
      (∀ xs : List String, jget kvs k = some (.arr (xs.map JVal.s)) →
          jget kvsR k = some (.s (joinedNewline xs))) ∧
      (∀ t : String, jget kvs k = some (.s t) → jget kvsR k = some (.s t)) := by
  induction kvs with
  | nil =>
    intro kvsR k _ _
    constructor <;> intro _ hx <;> simp [jget] at hx
  | cons kv rest ih =>
    obtain ⟨k0, v0⟩ := kv
    intro kvsR k hrep hk
    rw [listJoinRepair] at hrep
    cases hj : (if k0 ∈ expectedKeys then joinIfList v0 else some v0) with
    | none => rw [hj] at hrep; simp at hrep
    | some w =>
      cases hrest : listJoinRepair rest with
      | none => rw [hj, hrest] at hrep; simp at hrep
      | some ws =>
        rw [hj, hrest] at hrep
        simp only [Option.some.injEq] at hrep
        subst hrep
        by_cases hk0 : k0 == k
        · have hk0' : k0 = k := by simpa using hk0
          have hj' : joinIfList v0 = some w := by
            rw [if_pos (hk0' ▸ hk)] at hj
            exact hj
          constructor
          · intro xs hxs
            rw [jget_cons, if_pos hk0] at hxs
            simp only [Option.some.injEq] at hxs
            rw [hxs] at hj'
            simp only [joinIfList, joinStrings_map, Option.map_some',
              Option.some.injEq] at hj'
            rw [jget_cons, if_pos hk0, ← hj']
          · intro t ht
            rw [jget_cons, if_pos hk0] at ht
            simp only [Option.some.injEq] at ht
            rw [ht] at hj'
            have e : joinIfList (JVal.s t) = some (JVal.s t) := rfl
            rw [e] at hj'
            simp only [Option.some.injEq] at hj'
            rw [jget_cons, if_pos hk0, ← hj']
        · have hb : (k0 == k) = false := by simpa using hk0
          have hrec := ih ws k hrest hk
          constructor
          · intro xs hxs
            rw [jget_cons, hb] at hxs
            simp only [Bool.false_eq_true, if_false] at hxs
            rw [jget_cons, hb]
            simp only [Bool.false_eq_true, if_false]
            exact hrec.1 xs hxs
          · intro t ht
            rw [jget_cons, hb] at ht
            simp only [Bool.false_eq_true, if_false] at ht
            rw [jget_cons, hb]
            simp only [Bool.false_eq_true, if_false]
            exact hrec.2 t ht

/-- C9 witness: a `phase2` that arrived as `["a", "b"]` is repaired to
`"a\nb"` while a string-valued `phase1` is untouched. -/
theorem list_join_repair_values_witness :
    listJoinRepair [("phase1", JVal.s "p"), ("phase2", JVal.arr [JVal.s "a", JVal.s "b"])]
      = some [("phase1", JVal.s "p"), ("phase2", JVal.s "a\nb")] ∧
    ("phase2" ∈ expectedKeys) ∧
    jget [("phase1", JVal.s "p"), ("phase2", JVal.s "a\nb")] "phase2"
      = some (JVal.s "a\nb") ∧
    jget [("phase1", JVal.s "p"), ("phase2", JVal.s "a\nb")] "phase1"
      = some (JVal.s "p") := by
  refine ⟨rfl, by decide, ?_, ?_⟩
  · exact (list_join_repair_values
      [("phase1", JVal.s "p"), ("phase2", JVal.arr [JVal.s "a", JVal.s "b"])]
      [("phase1", JVal.s "p"), ("phase2", JVal.s "a\nb")]
      "phase2" rfl (by decide)).1 ["a", "b"] rfl
  · exact (list_join_repair_values
      [("phase1", JVal.s "p"), ("phase2", JVal.arr [JVal.s "a", JVal.s "b"])]
      [("phase1", JVal.s "p"), ("phase2", JVal.s "a\nb")]
      "phase1" rfl (by decide)).2 "p" rfl

theorem normalizeParsed_no_assessment (j : JVal) (body : List (String × JVal))
    (h : normalizeParsed j = .success body) : jget body "assessment" = none := by
  cases j with
  | obj kvs =>
    rw [normalizeParsed] at h
    cases hr : repairShape kvs with
    | none =>
      rw [hr] at h
      exact NormOutcome.noConfusion
        (show NormOutcome.unhandledError = NormOutcome.success body from h)
    | some kvs3 =>
      rw [hr] at h
      replace h : (if pyTruthy (jget kvs3 "phase2") = true then NormOutcome.success kvs3
          else NormOutcome.primaryContentEmpty) = NormOutcome.success body := h
      split_ifs at h with ht
      · simp only [NormOutcome.success.injEq] at h
        subst h
        unfold repairShape at hr
        cases h1 : listJoinRepair kvs with
        | none => rw [h1] at hr; simp at hr
        | some kvs1 =>
          rw [h1, Option.some_bind] at hr
          cases h2 : mergeAssessment kvs1 with
          | none => rw [h2] at hr; simp at hr
          | some kvs2 =>
            rw [h2, Option.map_some'] at hr
            simp only [Option.some.injEq] at hr
            rw [← hr]
            exact jget_jdel_self kvs2 "assessment"
  | s str =>
    exact NormOutcome.noConfusion
      (show NormOutcome.unhandledError = NormOutcome.success body from h)
  | num n =>
    exact NormOutcome.noConfusion
      (show NormOutcome.unhandledError = NormOutcome.success body from h)
  | bool b =>
    exact NormOutcome.noConfusion
      (show NormOutcome.unhandledError = NormOutcome.success body from h)
  | null =>
    exact NormOutcome.noConfusion
      (show NormOutcome.unhandledError = NormOutcome.success body from h)
  | arr xs =>
    exact NormOutcome.noConfusion
      (show NormOutcome.unhandledError = NormOutcome.success body from h)

/-- C10: every successful (HTTP 200) response body is free of the
`assessment` key — the merge step's unconditional delete removes it even when
the assessment content was empty and no heading was appended. -/
theorem success_body_has_no_assessment (jparse : String → Option JVal)
    (r : GatewayResponse) (body : List (String × JVal))
    (h : normalize jparse r = .success body) :
    jget body "assessment" = none := by
  unfold normalize at h
  split_ifs at h with hc
  cases hp : jparse (fenceStrip (pyStrip (r.text.getD ""))) with
  | none =>
    rw [hp] at h
    exact NormOutcome.noConfusion
      (show NormOutcome.invalidJson (pyStrip (r.text.getD "")) = NormOutcome.success body from h)
  | some j =>
    rw [hp] at h
    exact normalizeParsed_no_assessment j body h

/-- C10 witness: a parsed object carrying an empty `assessment` succeeds with
a 200 body from which the key has been deleted without any heading being
appended. -/
theorem success_body_has_no_assessment_witness :
    normalize (fun _ => some (.obj [("phase2", JVal.s "zz"), ("assessment", JVal.s "")]))
        ⟨some "x", []⟩ = .success [("phase2", JVal.s "zz")] ∧
    jget [("phase2", JVal.s "zz")] "assessment" = none :=
  ⟨rfl, success_body_has_no_assessment
    (fun _ => some (.obj [("phase2", JVal.s "zz"), ("assessment", JVal.s "")]))
    ⟨some "x", []⟩ [("phase2", JVal.s "zz")] rfl⟩

end LessonPlan
